import Mathlib

set_option linter.unusedSectionVars false

/-!
# Formal model of the reversible tabular-editing core of `src/app.py`

The program keeps, per uploaded dataset, a current table (`data`) together
with edit-history fields in `st.session_state.user_settings[file.name]`:
`dropped_columns`, `dropped_rows`, `dropped_columns_df`, `dropped_rows_df`.
The button handlers for dropping/restoring columns and rows, type
conversion, renaming, the custom-formula block and the merge loop are
embedded below as pure functions.

A pandas `DataFrame` is modelled as a `Table`: an ordered list of column
names and an ordered list of rows, each row being an index key together
with its cell list (one cell per column, positionally).  Cells that pandas
would fill with `NaN` (alignment gaps in `pd.concat`) are modelled by the
`Inhabited` default of the cell type; instantiating the cell type with an
`Option` makes that marker `none`.

Each stateful handler is embedded as `DState → DState × Option Err`,
transliterating the Python statements in their source order: at every
point where the Python code can raise (and the surrounding `try` reports
an error), the embedding returns the state as mutated so far together
with the error.  In this program every raise point precedes the first
mutation, which is exactly what the atomicity claims assert.
-/

/-- Error taxonomy of the spec (§7), as surfaced by the handlers:
`NothingToRestore` is the `st.warning("No ... to restore.")` path,
`ColumnNotFound` / `RowNotFound` are pandas `KeyError`s caught by the
surrounding `try`, `MergeKeyError` the `KeyError` raised by `pd.merge`,
`ConversionError` the `astype` failure, `FormulaError` the failures of the
custom-formula block. -/
inductive Err where
  | ColumnNotFound
  | RowNotFound
  | NothingToRestore
  | MergeKeyError
  | ConversionError
  | FormulaError
  deriving DecidableEq, Repr

/-- A pandas DataFrame: ordered column names and ordered rows; each row is
an index key paired with its cells, aligned positionally with `cols`. -/
structure Table (κ α : Type) where
  cols : List String
  rows : List (κ × List α)
  deriving DecidableEq, Repr

namespace Table

variable {κ α : Type} [DecidableEq κ] [DecidableEq α] [Inhabited α]

/-- `df.empty` in pandas: true iff either axis has length zero. -/
def isEmpty (t : Table κ α) : Bool := t.cols.isEmpty || t.rows.isEmpty

/-- The row index: the list of row keys, in row order. -/
def index (t : Table κ α) : List κ := t.rows.map Prod.fst

/-- The cell of a row (given by its cell list) in the column named `c`,
looked up positionally through the column-name list. -/
def cellIn (cols : List String) (cells : List α) (c : String) : α :=
  cells.getD (cols.indexOf c) default

/-- `data[names]` on a column list: selects the named columns, in the
order of `names`, keeping all rows; raises `KeyError` (here
`ColumnNotFound`) if any name is absent. -/
def select (t : Table κ α) (names : List String) : Except Err (Table κ α) :=
  if names.all (fun c => t.cols.contains c) then
    .ok ⟨names, t.rows.map (fun r => (r.1, names.map (cellIn t.cols r.2)))⟩
  else .error .ColumnNotFound

/-- `data.drop(columns=names)`: removes the named columns, keeping the
remaining columns (and their cells) in their original relative order. -/
def dropCols (t : Table κ α) (names : List String) : Table κ α :=
  ⟨t.cols.filter (fun c => ¬ names.contains c),
   t.rows.map (fun r =>
     (r.1, ((t.cols.zip r.2).filter (fun p => ¬ names.contains p.1)).map Prod.snd))⟩

/-- `pd.concat([t, s], axis=1)`: appends `s`'s columns after `t`'s,
aligning rows by index key (outer join): a key of `t` missing from `s`
gets default-marker cells for `s`'s columns, and keys of `s` missing from
`t` are appended below with default-marker cells for `t`'s columns. -/
def concatCols (t s : Table κ α) : Table κ α :=
  ⟨t.cols ++ s.cols,
   t.rows.map (fun r =>
       (r.1, r.2 ++ ((s.rows.lookup r.1).getD (List.replicate s.cols.length default))))
     ++ (s.rows.filter (fun q => ¬ (t.index).contains q.1)).map
         (fun q => (q.1, List.replicate t.cols.length default ++ q.2))⟩

/-- `pd.concat([t, s])` (axis=0): stacks `t`'s rows above `s`'s, taking
the union of the column lists in order of first appearance; cells of a
column absent from a row's own table become the default marker. -/
def concatRows (t s : Table κ α) : Table κ α :=
  ⟨t.cols ++ s.cols.filter (fun c => ¬ t.cols.contains c),
   t.rows.map (fun r =>
       (r.1, (t.cols ++ s.cols.filter (fun c => ¬ t.cols.contains c)).map
         (fun c => if t.cols.contains c then cellIn t.cols r.2 c else default)))
     ++ s.rows.map (fun r =>
       (r.1, (t.cols ++ s.cols.filter (fun c => ¬ t.cols.contains c)).map
         (fun c => if s.cols.contains c then cellIn s.cols r.2 c else default)))⟩

/-- `df.sort_index()`: re-orders the rows by index key, ascending.  The
program only sorts tables whose index keys are unique (`Table` invariant),
so the choice of sorting algorithm does not affect the result. -/
def sortIndex [LinearOrder κ] (t : Table κ α) : Table κ α :=
  ⟨t.cols, List.insertionSort (fun a b => a.1 ≤ b.1) t.rows⟩

/-- `data.loc[keys]`: the rows at the given index keys, in the order of
`keys`; raises `KeyError` (here `RowNotFound`) if any key is absent. -/
def loc (t : Table κ α) (keys : List κ) : Except Err (Table κ α) :=
  if keys.all (fun k => (t.index).contains k) then
    .ok ⟨t.cols,
         keys.map (fun k => (k, (t.rows.lookup k).getD (List.replicate t.cols.length default)))⟩
  else .error .RowNotFound

/-- `data.drop(index=keys)`: removes the rows whose key is in `keys`. -/
def dropRowsT (t : Table κ α) (keys : List κ) : Table κ α :=
  ⟨t.cols, t.rows.filter (fun r => ¬ keys.contains r.1)⟩

/-- `t.loc[t.index.isin(keys)]`: keeps the rows whose key is in `keys`,
in their original order; never raises. -/
def filterIsin (t : Table κ α) (keys : List κ) : Table κ α :=
  ⟨t.cols, t.rows.filter (fun r => keys.contains r.1)⟩

/-- The cell list of the column named `c`, in row order. -/
def column (t : Table κ α) (c : String) : List α :=
  t.rows.map (fun r => cellIn t.cols r.2 c)

/-- `data[c] = vals`: overwrites column `c` in place if present,
otherwise appends it as a new last column. -/
def assignColumn (t : Table κ α) (c : String) (vals : List α) : Table κ α :=
  if t.cols.contains c then
    ⟨t.cols, (t.rows.zip vals).map (fun rv => (rv.1.1, rv.1.2.set (t.cols.indexOf c) rv.2))⟩
  else
    ⟨t.cols ++ [c], (t.rows.zip vals).map (fun rv => (rv.1.1, rv.1.2 ++ [rv.2]))⟩

end Table

/-- The per-dataset session state: the current table plus the four
edit-history fields of `st.session_state.user_settings[file.name]`. -/
structure DState (κ α : Type) where
  data : Table κ α
  dropped_columns : List String
  dropped_rows : List κ
  dropped_columns_df : Table κ α
  dropped_rows_df : Table κ α
  deriving DecidableEq, Repr

namespace DState

variable {κ α : Type} [DecidableEq κ] [DecidableEq α] [Inhabited α]

/-- The state of a freshly loaded dataset: both snapshots are the empty
`pd.DataFrame()`. -/
def initState (t : Table κ α) : DState κ α :=
  ⟨t, [], [], ⟨[], []⟩, ⟨[], []⟩⟩

/-- The "Drop Selected Columns" handler (src/app.py lines 122-135):
snapshot `data[drop_columns].copy()` (KeyError if a name is absent, caught
before any mutation), then drop the columns from `data` and extend
`dropped_columns`. -/
def drop_columns (s : DState κ α) (names : List String) : DState κ α × Option Err :=
  match s.data.select names with
  | .error e => (s, some e)
  | .ok snap =>
      ({ s with dropped_columns_df := snap,
                data := s.data.dropCols names,
                dropped_columns := s.dropped_columns ++ names }, none)

/-- The "Restore Selected Columns" handler (src/app.py lines 138-159):
warn `NothingToRestore` if the snapshot `DataFrame` is empty; otherwise
select the requested names out of the snapshot (KeyError, caught, if one
is absent from it), concat them onto `data` along axis 1, and filter the
restored names out of `dropped_columns`.  The snapshot itself is not
modified. -/
def restore_columns (s : DState κ α) (names : List String) : DState κ α × Option Err :=
  if s.dropped_columns_df.isEmpty then (s, some .NothingToRestore)
  else
    match s.dropped_columns_df.select names with
    | .error e => (s, some e)
    | .ok restored =>
        ({ s with data := s.data.concatCols restored,
                  dropped_columns := s.dropped_columns.filter (fun c => ¬ names.contains c) },
         none)

/-- The "Drop Selected Rows" handler (src/app.py lines 165-178):
snapshot `data.loc[drop_rows].copy()` (KeyError if a key is absent, caught
before any mutation), then drop the rows and extend `dropped_rows`. -/
def drop_rows (s : DState κ α) (keys : List κ) : DState κ α × Option Err :=
  match s.data.loc keys with
  | .error e => (s, some e)
  | .ok snap =>
      ({ s with dropped_rows_df := snap,
                data := s.data.dropRowsT keys,
                dropped_rows := s.dropped_rows ++ keys }, none)

/-- The "Restore Selected Rows" handler (src/app.py lines 181-202):
warn `NothingToRestore` if the snapshot is empty; otherwise take the
snapshot rows whose key is in the request (`isin`, never raises), concat
them below `data`, re-sort by index key ascending, and filter every
requested key out of `dropped_rows`.  The snapshot itself is not
modified. -/
def restore_rows [LinearOrder κ] (s : DState κ α) (keys : List κ) : DState κ α × Option Err :=
  if s.dropped_rows_df.isEmpty then (s, some .NothingToRestore)
  else
    ({ s with data := (s.data.concatRows (s.dropped_rows_df.filterIsin keys)).sortIndex,
              dropped_rows := s.dropped_rows.filter (fun k => ¬ keys.contains k) }, none)

/-- The "Convert Column" handler (src/app.py lines 64-69):
`data[c] = data[c].astype(dtype)`.  The cast is abstracted by a cell
converter `conv`; `astype` computes the whole converted column (raising
`ConversionError` if any cell fails) before the assignment mutates
`data`. -/
def convert_column (s : DState κ α) (c : String) (conv : α → Option α) :
    DState κ α × Option Err :=
  if s.data.cols.contains c then
    match (s.data.column c).mapM conv with
    | none => (s, some .ConversionError)
    | some vals => ({ s with data := s.data.assignColumn c vals }, none)
  else (s, some .ColumnNotFound)

/-- The rename block (src/app.py lines 109-111):
`data.rename(columns={old: new}, inplace=True)` relabels every column
named `old` to `new` and never raises. -/
def rename_column (s : DState κ α) (old new : String) : DState κ α × Option Err :=
  ({ s with data := ⟨s.data.cols.map (fun c => if c = old then new else c), s.data.rows⟩ },
   none)

/-- The custom-formula block (src/app.py lines 231-238):
`name, expression = input.split("=")` fails unless the split has exactly
two parts; the expression evaluator (abstracted as `eval`, the pandas
`data.eval`) runs next and may fail; only then is the result assigned as
column `name`.  A result of the wrong length would make the pandas
assignment raise, still before any mutation. -/
def apply_formula (s : DState κ α) (input : String)
    (eval : Table κ α → String → Except Err (List α)) : DState κ α × Option Err :=
  match input.splitOn "=" with
  | [name, expr] =>
      match eval s.data expr.trim with
      | .error e => (s, some e)
      | .ok vals =>
          if vals.length = s.data.rows.length then
            ({ s with data := s.data.assignColumn name.trim vals }, none)
          else (s, some .FormulaError)
  | _ => (s, some .FormulaError)

end DState

/-- `pd.merge(t, s, on=key, how="inner")` (src/app.py line 218): inner
join on equality of the `key` column.  Raises `KeyError` (`MergeKeyError`)
if `key` is absent from either frame.  Result columns: `t`'s columns, then
`s`'s columns minus `key`; a non-key column name occurring on both sides
is suffixed `_x` on the left and `_y` on the right (pandas default
suffixes).  Result rows: for each row of `t`, in order, one combined row
per matching row of `s`, in order; the result index is a fresh
`RangeIndex` 0..n-1. -/
def mergeInner {α : Type} [DecidableEq α] [Inhabited α] (t s : Table Nat α)
    (key : String) : Except Err (Table Nat α) :=
  if t.cols.contains key && s.cols.contains key then
    .ok ⟨t.cols.map (fun c => if c != key && s.cols.contains c then c ++ "_x" else c)
           ++ (s.cols.filter (fun c => c != key)).map
                (fun c => if t.cols.contains c then c ++ "_y" else c),
         (t.rows.flatMap (fun r1 =>
            (s.rows.filter (fun r2 =>
                Table.cellIn s.cols r2.2 key == Table.cellIn t.cols r1.2 key)).map
              (fun r2 =>
                r1.2 ++ ((s.cols.zip r2.2).filter (fun p => p.1 != key)).map Prod.snd))).enum⟩
  else .error .MergeKeyError

/-- The Merge/Join loop (src/app.py lines 216-218):
`data = datasets[0]; for df in datasets[1:]: data = data.merge(df, on=merge_on,
how="inner") if merge_on else data`.  Note the truthiness guard: with an
empty key string no merge is attempted at all and the first table is
returned unchanged. -/
def merge_all {α : Type} [DecidableEq α] [Inhabited α] (t0 : Table Nat α)
    (rest : List (Table Nat α)) (key : String) : Except Err (Table Nat α) :=
  rest.foldl
    (fun acc df => if key ≠ "" then acc.bind (fun d => mergeInner d df key) else acc)
    (.ok t0)

/-- Python's literal substring test `pat in hay` (no pattern syntax). -/
def strContainsLit (hay pat : String) : Bool :=
  (List.range (hay.toList.length + 1)).any
    (fun i => ((hay.toList.drop i).take pat.toList.length) == pat.toList)

/-- Modelled from the spec (§4.3 Filter): "keeps rows where a chosen
column's text representation contains a user-supplied substring
(case-sensitive, literal substring match, not a pattern)".  The source
line 228 instead calls `data[data[col].astype(str).str.contains(value)]`,
whose default is `regex=True`, i.e. the user string is interpreted as a
regular expression, not literally; `rep` abstracts `astype(str)`. -/
def filterRowsLit {κ α : Type} [DecidableEq κ] [DecidableEq α] [Inhabited α]
    (t : Table κ α) (rep : α → String) (c : String) (v : String) : Table κ α :=
  ⟨t.cols, t.rows.filter (fun r => strContainsLit (rep (Table.cellIn t.cols r.2 c)) v)⟩

/-- The key-ordering relation used by `sort_index` is total. -/
instance instKeyLeTotal {κ α : Type} [LinearOrder κ] :
    IsTotal (κ × List α) (fun a b => a.1 ≤ b.1) :=
  ⟨fun a b => le_total a.1 b.1⟩

/-- The key-ordering relation used by `sort_index` is transitive. -/
instance instKeyLeTrans {κ α : Type} [LinearOrder κ] :
    IsTrans (κ × List α) (fun a b => a.1 ≤ b.1) :=
  ⟨fun _ _ _ h1 h2 => le_trans h1 h2⟩

/-! ## Example tables used by concrete witnesses and counterexamples -/

/-- A small three-column table with two rows. -/
def tabABC : Table Nat Int := ⟨["a", "b", "c"], [(0, [1, 2, 3]), (1, [4, 5, 6])]⟩

/-- A two-column table with no rows (a legal DataFrame). -/
def tabNoRows : Table Nat Int := ⟨["a", "b"], []⟩

/-- A table with two rows and no columns (a legal DataFrame). -/
def tabNoCols : Table Nat Int := ⟨[], [(0, []), (1, [])]⟩

/-- Key column `k` with values 1 and 2. -/
def tabKey1 : Table Nat Int := ⟨["k", "u"], [(0, [1, 10]), (1, [2, 20])]⟩

/-- Key column `k` with value 5 only: no key value in common with
`tabKey1`. -/
def tabKey2 : Table Nat Int := ⟨["k", "w"], [(0, [5, 100])]⟩

/-- Key column `k` with value 1: matches `tabKey1` but not `tabKey2`. -/
def tabKey3 : Table Nat Int := ⟨["k", "x"], [(0, [1, 7])]⟩

/-- A one-column text table whose single cell is the text `abc`. -/
def tabText : Table Nat String := ⟨["x"], [(0, ["abc"])]⟩

/-! ## Helper lemmas about positional cell access -/

section ListHelpers

variable {κ α : Type} [DecidableEq κ] [DecidableEq α] [Inhabited α]

open Table

lemma getD_map_indexOf (l : List String) (f : String → α) {c : String} (hc : c ∈ l) :
    (l.map f).getD (l.indexOf c) default = f c := by
  have h : l.indexOf c < l.length := List.indexOf_lt_length.2 hc
  rw [List.getD_eq_getElem _ _ (by simpa using h), List.getElem_map]
  rw [List.getElem_indexOf h]

lemma cellIn_cons_self (c : String) (cs : List String) (x : α) (xs : List α) :
    cellIn (c :: cs) (x :: xs) c = x := by
  simp [cellIn, List.indexOf_cons_self]

lemma cellIn_cons_ne {c c' : String} (cs : List String) (x : α) (xs : List α) (h : c' ≠ c) :
    cellIn (c :: cs) (x :: xs) c' = cellIn cs xs c' := by
  simp [cellIn, List.indexOf_cons, beq_false_of_ne (Ne.symm h)]

lemma zip_filter_map_snd (p : String → Bool) (cols : List String) :
    ∀ cells : List α, cells.length = cols.length → cols.Nodup →
      ((cols.zip cells).filter (fun q => p q.1)).map Prod.snd
        = (cols.filter p).map (fun c => cellIn cols cells c) := by
  induction cols with
  | nil => intro cells _ _; simp
  | cons c cs ih =>
    intro cells hlen hnd
    cases cells with
    | nil => simp at hlen
    | cons x xs =>
      rcases List.nodup_cons.1 hnd with ⟨hcn, hnd'⟩
      have hlen' : xs.length = cs.length := by simpa using hlen
      have htail : (cs.filter p).map (fun c' => cellIn (c :: cs) (x :: xs) c')
          = (cs.filter p).map (fun c' => cellIn cs xs c') := by
        refine List.map_congr_left (fun c' hc' => ?_)
        exact cellIn_cons_ne cs x xs (fun he => hcn (he ▸ List.mem_of_mem_filter hc'))
      by_cases hp : p c
      · simp [List.filter_cons, hp, cellIn_cons_self, htail, ih xs hlen' hnd']
      · simp [List.filter_cons, hp, htail, ih xs hlen' hnd']

lemma map_cellIn_self (cols : List String) :
    ∀ cells : List α, cells.length = cols.length → cols.Nodup →
      cols.map (fun c => cellIn cols cells c) = cells := by
  induction cols with
  | nil =>
    intro cells hlen _
    have : cells = [] := List.length_eq_zero.1 (by simpa using hlen)
    simp [this]
  | cons c cs ih =>
    intro cells hlen hnd
    cases cells with
    | nil => simp at hlen
    | cons x xs =>
      rcases List.nodup_cons.1 hnd with ⟨hcn, hnd'⟩
      have hlen' : xs.length = cs.length := by simpa using hlen
      have htail : cs.map (fun c' => cellIn (c :: cs) (x :: xs) c')
          = cs.map (fun c' => cellIn cs xs c') :=
        List.map_congr_left (fun c' hc' => cellIn_cons_ne cs x xs (fun he => hcn (he ▸ hc')))
      simp only [List.map_cons, cellIn_cons_self, htail, ih xs hlen' hnd']

end ListHelpers

/-! ## Helper lemmas about index lookup and row filtering -/

section LookupHelpers

variable {κ β : Type} [DecidableEq κ]

lemma lookup_map_pair {γ : Type} (f : κ → β → γ) (k : κ) :
    ∀ rows : List (κ × β),
      List.lookup k (rows.map (fun r => (r.1, f r.1 r.2))) = (List.lookup k rows).map (f k)
  | [] => rfl
  | (a, b) :: rs => by
    by_cases h : k = a
    · subst h; simp [List.lookup_cons]
    · simp [List.lookup_cons, beq_false_of_ne h, lookup_map_pair f k rs]

lemma lookup_eq_some_of_mem {rows : List (κ × β)} {k : κ} {b : β}
    (hnd : (rows.map Prod.fst).Nodup) (hmem : (k, b) ∈ rows) :
    List.lookup k rows = some b := by
  induction rows with
  | nil => simp at hmem
  | cons r rs ih =>
    rw [List.map_cons] at hnd
    rcases List.nodup_cons.1 hnd with ⟨hr, hnd'⟩
    rcases List.mem_cons.1 hmem with he | hm
    · subst he; simp [List.lookup_cons]
    · have hk : k ≠ r.1 := by
        intro he
        exact hr (he ▸ List.mem_map_of_mem Prod.fst hm)
      rcases r with ⟨a, c⟩
      simp only [List.lookup_cons, beq_false_of_ne hk]
      exact ih hnd' hm

lemma mem_of_lookup_eq_some {rows : List (κ × β)} {k : κ} {b : β}
    (h : List.lookup k rows = some b) : (k, b) ∈ rows := by
  rcases List.lookup_eq_some_iff.1 h with ⟨l1, l2, he, -⟩
  subst he; simp

lemma exists_lookup_of_mem_fst {rows : List (κ × β)} {k : κ}
    (h : k ∈ rows.map Prod.fst) : ∃ b, List.lookup k rows = some b := by
  induction rows with
  | nil => simp at h
  | cons r rs ih =>
    by_cases hk : k = r.1
    · exact ⟨r.2, by rcases r with ⟨a, c⟩; subst hk; simp [List.lookup_cons]⟩
    · rcases ih (by simpa [hk] using h) with ⟨b, hb⟩
      exact ⟨b, by rcases r with ⟨a, c⟩; simpa [List.lookup_cons, beq_false_of_ne hk] using hb⟩

lemma filter_keys_cons (k : κ) (ks : List κ) {rows : List (κ × β)} {cells : β}
    (hnd : (rows.map Prod.fst).Nodup) (hmem : (k, cells) ∈ rows) (hk : k ∉ ks) :
    List.Perm (rows.filter (fun r => (k :: ks).contains r.1))
      ((k, cells) :: rows.filter (fun r => ks.contains r.1)) := by
  induction rows with
  | nil => simp at hmem
  | cons r rs ih =>
    rw [List.map_cons] at hnd
    rcases List.nodup_cons.1 hnd with ⟨hr, hnd'⟩
    rcases List.mem_cons.1 hmem with he | hm
    · subst he
      have hrK : k ∉ List.map Prod.fst rs := hr
      have hrs : ∀ q ∈ rs, ((k :: ks).contains q.1) = (ks.contains q.1) := by
        intro q hq
        have hne : q.1 ≠ k := by
          intro he'
          exact hrK (by rw [← he']; exact List.mem_map_of_mem Prod.fst hq)
        rw [List.contains_cons, beq_false_of_ne hne, Bool.false_or]
      have hkf : (ks.contains k) = false := by simpa using hk
      rw [show List.filter (fun r => (k :: ks).contains r.1) ((k, cells) :: rs)
            = (k, cells) :: List.filter (fun r => (k :: ks).contains r.1) rs from by
          simp [List.filter_cons, List.contains_cons]]
      rw [show List.filter (fun r => ks.contains r.1) ((k, cells) :: rs)
            = List.filter (fun r => ks.contains r.1) rs from by
          simp [List.filter_cons, hkf, hk]]
      rw [List.filter_congr hrs]
    · have hrk : r.1 ≠ k := by
        intro he'
        apply hr
        rw [he']
        exact List.mem_map_of_mem Prod.fst hm
      have hcc : ((k :: ks).contains r.1) = (ks.contains r.1) := by
        rw [List.contains_cons, beq_false_of_ne hrk, Bool.false_or]
      by_cases hmemks : (ks.contains r.1) = true
      · have hin : r.1 ∈ ks := by simpa using hmemks
        rw [show List.filter (fun q => (k :: ks).contains q.1) (r :: rs)
              = r :: List.filter (fun q => (k :: ks).contains q.1) rs from by
            simp [List.filter_cons, hcc, hin]]
        rw [show List.filter (fun q => ks.contains q.1) (r :: rs)
              = r :: List.filter (fun q => ks.contains q.1) rs from by
            simp [List.filter_cons, hin]]
        exact ((ih hnd' hm).cons r).trans (List.Perm.swap _ _ _)
      · have hnotin : r.1 ∉ ks := by simpa using hmemks
        rw [show List.filter (fun q => (k :: ks).contains q.1) (r :: rs)
              = List.filter (fun q => (k :: ks).contains q.1) rs from by
            simp [List.filter_cons, hrk, hnotin]]
        rw [show List.filter (fun q => ks.contains q.1) (r :: rs)
              = List.filter (fun q => ks.contains q.1) rs from by
            simp [List.filter_cons, hnotin]]
        exact ih hnd' hm

end LookupHelpers

/-! ## Lemmas about the table operations -/

section TableLemmas

variable {κ α : Type} [DecidableEq κ] [DecidableEq α] [Inhabited α]

open Table

lemma select_ok {t : Table κ α} {names : List String} (h : ∀ c ∈ names, c ∈ t.cols) :
    t.select names
      = .ok ⟨names, t.rows.map (fun r => (r.1, names.map (cellIn t.cols r.2)))⟩ := by
  simp only [Table.select]
  rw [if_pos]
  rw [List.all_eq_true]
  intro c hc
  simpa using h c hc

lemma select_error {t : Table κ α} {names : List String} {c : String}
    (hc : c ∈ names) (habs : c ∉ t.cols) :
    t.select names = .error .ColumnNotFound := by
  simp only [Table.select]
  rw [if_neg]
  rw [List.all_eq_true]
  intro hall
  exact habs (by simpa using hall c hc)

lemma index_map_rows (rows : List (κ × List α)) (f : κ × List α → List α) :
    (rows.map (fun r => (r.1, f r))).map Prod.fst = rows.map Prod.fst := by
  rw [List.map_map]; rfl

lemma cellIn_map_self {A : List String} (f : String → α) {a : String} (ha : a ∈ A) :
    cellIn A (A.map f) a = f a := by
  show (A.map f).getD (A.indexOf a) default = f a
  exact getD_map_indexOf A f ha

lemma cellIn_append_maps (F A : List String) (f : String → α) {c : String}
    (h : (c ∉ F ∧ c ∈ A) ∨ c ∈ F) :
    cellIn (F ++ A) (F.map f ++ A.map f) c = f c := by
  rcases h with ⟨hnF, hcA⟩ | hF
  · show (F.map f ++ A.map f).getD ((F ++ A).indexOf c) default = f c
    rw [List.indexOf_append_of_not_mem hnF,
        List.getD_append_right _ _ _ _ (by simp)]
    simp only [List.length_map, Nat.add_sub_cancel_left]
    exact getD_map_indexOf A f hcA
  · show (F.map f ++ A.map f).getD ((F ++ A).indexOf c) default = f c
    rw [List.indexOf_append_of_mem hF,
        List.getD_append _ _ _ _ (by simpa using List.indexOf_lt_length.2 hF)]
    exact getD_map_indexOf F f hF

lemma dropCols_rows_eq (T : Table κ α) (A : List String)
    (hnd : T.cols.Nodup) (hlen : ∀ r ∈ T.rows, r.2.length = T.cols.length) :
    (T.dropCols A).rows
      = T.rows.map (fun r =>
          (r.1, (T.cols.filter (fun c => ¬ A.contains c)).map
                  (fun c => cellIn T.cols r.2 c))) := by
  unfold dropCols
  refine List.map_congr_left (fun r hr => ?_)
  rw [zip_filter_map_snd (fun x => ¬ A.contains x) T.cols r.2 (hlen r hr) hnd]

end TableLemmas

section RoundTripColumns

variable {κ α : Type} [DecidableEq κ] [DecidableEq α] [Inhabited α]

open Table

lemma concat_drop_select (T : Table κ α) (A : List String)
    (hnd : T.cols.Nodup) (hknd : T.index.Nodup)
    (hlen : ∀ r ∈ T.rows, r.2.length = T.cols.length) :
    (T.dropCols A).concatCols
        ⟨A, T.rows.map (fun r => (r.1, A.map (cellIn T.cols r.2)))⟩
      = ⟨T.cols.filter (fun c => ¬ A.contains c) ++ A,
         T.rows.map (fun r =>
           (r.1, (T.cols.filter (fun c => ¬ A.contains c)).map (fun c => cellIn T.cols r.2 c)
                   ++ A.map (fun c => cellIn T.cols r.2 c)))⟩ := by
  have hdrows := dropCols_rows_eq T A hnd hlen
  have hdindex : (T.dropCols A).index = T.index := by
    rw [Table.index, hdrows, index_map_rows]; rfl
  have hpart2 :
      (List.filter (fun q => ¬ ((T.dropCols A).index).contains q.1)
        (T.rows.map (fun r => (r.1, A.map (cellIn T.cols r.2))))) = [] := by
    rw [List.filter_eq_nil_iff]
    intro q hq
    rcases List.mem_map.1 hq with ⟨r, hr, he⟩
    have hqk : q.1 ∈ T.index := by
      rw [← he]
      show r.1 ∈ List.map Prod.fst T.rows
      exact List.mem_map_of_mem Prod.fst hr
    rw [hdindex]
    simp [hqk]
  have hdcols : (T.dropCols A).cols = T.cols.filter (fun c => ¬ A.contains c) := rfl
  simp only [Table.concatCols]
  rw [hpart2, List.map_nil, List.append_nil, hdcols, hdrows, List.map_map]
  congr 1
  refine List.map_congr_left (fun r hr => ?_)
  have hlk : List.lookup r.1
      (T.rows.map (fun r => (r.1, A.map (cellIn T.cols r.2))))
      = some (A.map (cellIn T.cols r.2)) := by
    rw [lookup_map_pair (fun _ cells => A.map (cellIn T.cols cells)) r.1 T.rows]
    rw [lookup_eq_some_of_mem hknd (show (r.1, r.2) ∈ T.rows from hr)]
    rfl
  simp only [Function.comp]
  rw [hlk]
  rfl

end RoundTripColumns

/-- **C1** (amended): for a table `T` with at least one row, and a nonempty
set `A` of column names all present in `T`, dropping `A` and then restoring
`A` succeeds and yields `T` up to column order: the columns not in `A` keep
their original relative order and values, and the columns of `A` are
appended at the end with their original values (and `dropped_columns` is
empty again).  The original claim's quantification over *every* table and
*every* subset fails for a zero-row table or an empty `A`, where the
restore fails with `NothingToRestore` (see the counterexample). -/
theorem C1_drop_restore_columns_round_trip
    {κ α : Type} [DecidableEq κ] [DecidableEq α] [Inhabited α]
    (T : Table κ α) (A : List String)
    (hnd : T.cols.Nodup) (hknd : T.index.Nodup)
    (hlen : ∀ r ∈ T.rows, r.2.length = T.cols.length)
    (hA : ∀ a ∈ A, a ∈ T.cols) (hAne : A ≠ []) (hTne : T.rows ≠ []) :
    (DState.drop_columns (DState.initState T) A).2 = none ∧
    (DState.restore_columns (DState.drop_columns (DState.initState T) A).1 A).2 = none ∧
    (DState.restore_columns (DState.drop_columns (DState.initState T) A).1 A).1.data.cols
      = T.cols.filter (fun c => ¬ A.contains c) ++ A ∧
    (DState.restore_columns (DState.drop_columns (DState.initState T) A).1 A).1.data.index
      = T.index ∧
    (∀ c ∈ T.cols,
      (DState.restore_columns (DState.drop_columns (DState.initState T) A).1 A).1.data.column c
        = T.column c) ∧
    (DState.restore_columns (DState.drop_columns (DState.initState T) A).1 A).1.dropped_columns
      = [] := by
  have hsel : T.select A
      = .ok ⟨A, T.rows.map (fun r => (r.1, A.map (Table.cellIn T.cols r.2)))⟩ :=
    select_ok hA
  have h1 : DState.drop_columns (DState.initState T) A
      = (⟨T.dropCols A, A, [],
          ⟨A, T.rows.map (fun r => (r.1, A.map (Table.cellIn T.cols r.2)))⟩, ⟨[], []⟩⟩, none) := by
    simp [DState.drop_columns, DState.initState, hsel]
  have hAne' : A.isEmpty = false := by
    cases A with
    | nil => exact absurd rfl hAne
    | cons a as => rfl
  have hrne' : ((T.rows.map (fun r => (r.1, A.map (Table.cellIn T.cols r.2)))).isEmpty)
      = false := by
    cases hT : T.rows with
    | nil => exact absurd hT hTne
    | cons r rs => rfl
  have hempty : (Table.isEmpty
      ⟨A, T.rows.map (fun r => (r.1, A.map (Table.cellIn T.cols r.2)))⟩) = false := by
    simp only [Table.isEmpty, hAne', hrne', Bool.or_self]
  have hsel2 : Table.select
      (⟨A, T.rows.map (fun r => (r.1, A.map (Table.cellIn T.cols r.2)))⟩ : Table κ α) A
      = .ok ⟨A, T.rows.map (fun r => (r.1, A.map (Table.cellIn T.cols r.2)))⟩ := by
    rw [select_ok (fun a ha => ha)]
    refine congrArg Except.ok ?_
    refine congrArg (Table.mk A) ?_
    rw [List.map_map]
    refine List.map_congr_left (fun r hr => ?_)
    simp only [Function.comp]
    congr 1
    refine List.map_congr_left (fun a ha => ?_)
    exact cellIn_map_self (Table.cellIn T.cols r.2) ha
  have hfilA : A.filter (fun c => ¬ A.contains c) = [] := by
    rw [List.filter_eq_nil_iff]
    intro a ha
    simp [ha]
  have h2 : DState.restore_columns
      (⟨T.dropCols A, A, [],
        ⟨A, T.rows.map (fun r => (r.1, A.map (Table.cellIn T.cols r.2)))⟩, ⟨[], []⟩⟩ : DState κ α) A
      = (⟨(T.dropCols A).concatCols
            ⟨A, T.rows.map (fun r => (r.1, A.map (Table.cellIn T.cols r.2)))⟩,
          [], [],
          ⟨A, T.rows.map (fun r => (r.1, A.map (Table.cellIn T.cols r.2)))⟩, ⟨[], []⟩⟩, none) := by
    simp [DState.restore_columns, hempty, hsel2, hfilA]
  have hfinal : DState.restore_columns (DState.drop_columns (DState.initState T) A).1 A
      = (⟨⟨T.cols.filter (fun c => ¬ A.contains c) ++ A,
           T.rows.map (fun r =>
             (r.1, (T.cols.filter (fun c => ¬ A.contains c)).map
                     (fun c => Table.cellIn T.cols r.2 c)
                     ++ A.map (fun c => Table.cellIn T.cols r.2 c)))⟩,
          [], [],
          ⟨A, T.rows.map (fun r => (r.1, A.map (Table.cellIn T.cols r.2)))⟩, ⟨[], []⟩⟩, none) := by
    have h1' : (DState.drop_columns (DState.initState T) A).1
        = ⟨T.dropCols A, A, [],
           ⟨A, T.rows.map (fun r => (r.1, A.map (Table.cellIn T.cols r.2)))⟩, ⟨[], []⟩⟩ := by
      rw [h1]
    rw [h1', h2, concat_drop_select T A hnd hknd hlen]
  refine ⟨?_, ?_, ?_, ?_, ?_, ?_⟩
  · rw [h1]
  · rw [hfinal]
  · rw [hfinal]
  · rw [hfinal]
    show (List.map _ T.rows).map Prod.fst = T.index
    exact index_map_rows T.rows _
  · intro c hc
    rw [hfinal]
    show (List.map _ T.rows).map _ = T.column c
    rw [List.map_map, Table.column]
    refine List.map_congr_left (fun r hr => ?_)
    simp only [Function.comp]
    by_cases hcA : c ∈ A
    · refine cellIn_append_maps _ A (Table.cellIn T.cols r.2) (Or.inl ⟨?_, hcA⟩)
      simp [List.mem_filter, hcA]
    · refine cellIn_append_maps _ A (Table.cellIn T.cols r.2) (Or.inr ?_)
      rw [List.mem_filter]
      exact ⟨hc, by simpa using hcA⟩
  · rw [hfinal]

/-- **C1** witness: the round trip at the concrete table `tabABC`
dropping and restoring the single column `b`. -/
theorem C1_drop_restore_columns_round_trip_witness :
    (DState.drop_columns (DState.initState tabABC) ["b"]).2 = none ∧
    (DState.restore_columns (DState.drop_columns (DState.initState tabABC) ["b"]).1 ["b"]).2
      = none ∧
    (DState.restore_columns (DState.drop_columns (DState.initState tabABC) ["b"]).1
        ["b"]).1.data.cols
      = tabABC.cols.filter (fun c => ¬ (["b"] : List String).contains c) ++ ["b"] ∧
    (DState.restore_columns (DState.drop_columns (DState.initState tabABC) ["b"]).1
        ["b"]).1.data.column "b"
      = tabABC.column "b" ∧
    (DState.restore_columns (DState.drop_columns (DState.initState tabABC) ["b"]).1
        ["b"]).1.dropped_columns = [] := by
  have h := C1_drop_restore_columns_round_trip tabABC ["b"]
    (by decide) (by decide) (by decide) (by decide) (by decide) (by decide)
  exact ⟨h.1, h.2.1, h.2.2.1, h.2.2.2.2.1 "b" (by decide), h.2.2.2.2.2⟩

/-- **C1** counterexample to the claim as stated: on the zero-row table
`tabNoRows` (columns `a`, `b`), dropping `["a"]` succeeds but restoring
`["a"]` fails with `NothingToRestore` (the snapshot has no rows, and
pandas `.empty` is true), leaving a table without column `a`; likewise
the empty column set on `tabABC` fails with `NothingToRestore` instead of
round-tripping. -/
theorem C1_counterexample :
    ((DState.drop_columns (DState.initState tabNoRows) ["a"]).2 = none ∧
     (DState.restore_columns (DState.drop_columns (DState.initState tabNoRows) ["a"]).1
         ["a"]).2 = some Err.NothingToRestore ∧
     "a" ∉ (DState.restore_columns
         (DState.drop_columns (DState.initState tabNoRows) ["a"]).1 ["a"]).1.data.cols) ∧
    ((DState.drop_columns (DState.initState tabABC) []).2 = none ∧
     (DState.restore_columns (DState.drop_columns (DState.initState tabABC) []).1 []).2
       = some Err.NothingToRestore) := by
  decide

/-- **C4** (amended): dropping a nonempty column set `A`, then a disjoint
nonempty column set `B` (which overwrites the single-slot snapshot), and
then restoring `A` fails — but with the `KeyError`-style `ColumnNotFound`
failure from selecting `A` out of the snapshot (src/app.py line 145,
caught at line 158), not with the `NothingToRestore` warning of line 142,
which fires only when the snapshot DataFrame is empty.  The state is left
exactly as after the two drops, and the data of `A` is in neither the
current table nor the snapshot: it is permanently lost. -/
theorem C4_overwritten_snapshot_restore_fails
    {κ α : Type} [DecidableEq κ] [DecidableEq α] [Inhabited α]
    (s : DState κ α) (A B : List String)
    (hA : ∀ a ∈ A, a ∈ s.data.cols)
    (hB : ∀ b ∈ B, b ∈ (s.data.dropCols A).cols)
    (hdisj : ∀ a ∈ A, a ∉ B)
    (hAne : A ≠ []) (hBne : B ≠ []) (hrows : s.data.rows ≠ []) :
    (DState.drop_columns s A).2 = none ∧
    (DState.drop_columns (DState.drop_columns s A).1 B).2 = none ∧
    (DState.restore_columns (DState.drop_columns (DState.drop_columns s A).1 B).1 A).2
      = some Err.ColumnNotFound ∧
    (DState.restore_columns (DState.drop_columns (DState.drop_columns s A).1 B).1 A).1
      = (DState.drop_columns (DState.drop_columns s A).1 B).1 ∧
    (∀ a ∈ A,
      a ∉ (DState.drop_columns (DState.drop_columns s A).1 B).1.data.cols ∧
      a ∉ (DState.drop_columns (DState.drop_columns s A).1 B).1.dropped_columns_df.cols) := by
  have hmapEmpty : ∀ {γ δ : Type} (l : List γ) (f : γ → δ),
      (l.map f).isEmpty = l.isEmpty := by
    intro γ δ l f
    cases l <;> rfl
  have h1 : DState.drop_columns s A
      = (⟨s.data.dropCols A, s.dropped_columns ++ A, s.dropped_rows,
          ⟨A, s.data.rows.map (fun r => (r.1, A.map (Table.cellIn s.data.cols r.2)))⟩,
          s.dropped_rows_df⟩, none) := by
    simp [DState.drop_columns, select_ok hA]
  have h1' : (DState.drop_columns s A).1
      = ⟨s.data.dropCols A, s.dropped_columns ++ A, s.dropped_rows,
          ⟨A, s.data.rows.map (fun r => (r.1, A.map (Table.cellIn s.data.cols r.2)))⟩,
          s.dropped_rows_df⟩ := by
    rw [h1]
  have h2 : DState.drop_columns (DState.drop_columns s A).1 B
      = (⟨(s.data.dropCols A).dropCols B, (s.dropped_columns ++ A) ++ B, s.dropped_rows,
          ⟨B, (s.data.dropCols A).rows.map
               (fun r => (r.1, B.map (Table.cellIn (s.data.dropCols A).cols r.2)))⟩,
          s.dropped_rows_df⟩, none) := by
    rw [h1']
    simp [DState.drop_columns, select_ok hB]
  have h2' : (DState.drop_columns (DState.drop_columns s A).1 B).1
      = ⟨(s.data.dropCols A).dropCols B, (s.dropped_columns ++ A) ++ B, s.dropped_rows,
          ⟨B, (s.data.dropCols A).rows.map
               (fun r => (r.1, B.map (Table.cellIn (s.data.dropCols A).cols r.2)))⟩,
          s.dropped_rows_df⟩ := by
    rw [h2]
  have hBne' : B.isEmpty = false := by
    cases B with
    | nil => exact absurd rfl hBne
    | cons b bs => rfl
  have hrowsB : (((s.data.dropCols A).rows.map
      (fun r => (r.1, B.map (Table.cellIn (s.data.dropCols A).cols r.2)))).isEmpty)
      = false := by
    rw [hmapEmpty]
    rw [show (s.data.dropCols A).rows
          = s.data.rows.map (fun r =>
              (r.1, ((s.data.cols.zip r.2).filter
                       (fun p => ¬ A.contains p.1)).map Prod.snd)) from rfl]
    rw [hmapEmpty]
    cases hT : s.data.rows with
    | nil => exact absurd hT hrows
    | cons r rs => rfl
  have hempty : (Table.isEmpty
      ⟨B, (s.data.dropCols A).rows.map
            (fun r => (r.1, B.map (Table.cellIn (s.data.dropCols A).cols r.2)))⟩) = false := by
    simp only [Table.isEmpty, hBne', hrowsB, Bool.or_self]
  rcases List.exists_cons_of_ne_nil hAne with ⟨a0, as, rfl⟩
  have hselErr : Table.select
      (⟨B, (s.data.dropCols (a0 :: as)).rows.map
            (fun r => (r.1, B.map (Table.cellIn (s.data.dropCols (a0 :: as)).cols r.2)))⟩
        : Table κ α)
      (a0 :: as) = .error .ColumnNotFound :=
    select_error (List.mem_cons_self a0 as) (hdisj a0 (List.mem_cons_self a0 as))
  have h3 : DState.restore_columns
      (DState.drop_columns (DState.drop_columns s (a0 :: as)).1 B).1 (a0 :: as)
      = ((DState.drop_columns (DState.drop_columns s (a0 :: as)).1 B).1,
         some Err.ColumnNotFound) := by
    rw [h2']
    simp [DState.restore_columns, hempty, hselErr]
  refine ⟨by rw [h1], by rw [h2], by rw [h3], by rw [h3], ?_⟩
  intro a ha
  rw [h2']
  constructor
  · intro hmem
    have hmem1 : a ∈ (s.data.dropCols (a0 :: as)).cols := List.mem_of_mem_filter hmem
    have : ¬ ((a0 :: as).contains a) = true := by
      have := List.of_mem_filter hmem1
      simpa using this
    exact this (by simpa using ha)
  · exact hdisj a ha

/-- **C4** counterexample to the claim as stated: on `tabABC`, dropping
`["a"]` then `["b"]` and restoring `["a"]` fails with `ColumnNotFound`
(the `KeyError` of selecting `a` out of the overwritten snapshot), which
is a different failure from the claimed `NothingToRestore`. -/
theorem C4_counterexample :
    (DState.restore_columns
        (DState.drop_columns (DState.drop_columns (DState.initState tabABC) ["a"]).1
          ["b"]).1 ["a"]).2 = some Err.ColumnNotFound ∧
    some Err.ColumnNotFound ≠ some Err.NothingToRestore := by
  decide

/-- **C4** witness: the amended theorem applied at `tabABC`, `A = ["a"]`,
`B = ["b"]`. -/
theorem C4_overwritten_snapshot_restore_fails_witness :
    (DState.restore_columns
        (DState.drop_columns (DState.drop_columns (DState.initState tabABC) ["a"]).1
          ["b"]).1 ["a"]).2 = some Err.ColumnNotFound ∧
    (DState.restore_columns
        (DState.drop_columns (DState.drop_columns (DState.initState tabABC) ["a"]).1
          ["b"]).1 ["a"]).1
      = (DState.drop_columns (DState.drop_columns (DState.initState tabABC) ["a"]).1
          ["b"]).1 ∧
    "a" ∉ (DState.drop_columns (DState.drop_columns (DState.initState tabABC) ["a"]).1
          ["b"]).1.data.cols ∧
    "a" ∉ (DState.drop_columns (DState.drop_columns (DState.initState tabABC) ["a"]).1
          ["b"]).1.dropped_columns_df.cols := by
  have h := C4_overwritten_snapshot_restore_fails (DState.initState tabABC) ["a"] ["b"]
    (by decide) (by decide) (by decide) (by decide) (by decide) (by decide)
  exact ⟨h.2.2.1, h.2.2.2.1, (h.2.2.2.2 "a" (by decide)).1, (h.2.2.2.2 "a" (by decide)).2⟩

/-- **C5** (amended): `restore_columns` fails with `NothingToRestore`
exactly when the dropped-columns snapshot DataFrame is empty (either axis
of length zero), and in that case the state is returned untouched.  An
empty `names` list with a non-empty snapshot does *not* fail, contrary to
the claim: the handler selects zero columns out of the snapshot, the
concat adds no column, and `dropped_columns` is unchanged. -/
theorem C5_restore_columns_nothing_to_restore
    {κ α : Type} [DecidableEq κ] [DecidableEq α] [Inhabited α]
    (s : DState κ α) (names : List String) :
    ((DState.restore_columns s names).2 = some Err.NothingToRestore
      ↔ s.dropped_columns_df.isEmpty = true) ∧
    (s.dropped_columns_df.isEmpty = true →
      DState.restore_columns s names = (s, some Err.NothingToRestore)) ∧
    (names = [] → s.dropped_columns_df.isEmpty = false →
      (DState.restore_columns s names).2 = none ∧
      (DState.restore_columns s names).1.data.cols = s.data.cols ∧
      (DState.restore_columns s names).1.dropped_columns = s.dropped_columns) := by
  by_cases hemp : s.dropped_columns_df.isEmpty = true
  · have hres : DState.restore_columns s names = (s, some Err.NothingToRestore) := by
      simp [DState.restore_columns, hemp]
    refine ⟨by simp [hres, hemp], fun _ => hres, fun _ hfalse => ?_⟩
    rw [hemp] at hfalse
    exact absurd hfalse (by simp)
  · have hemp' : s.dropped_columns_df.isEmpty = false := by
      simpa using hemp
    refine ⟨?_, fun htrue => absurd htrue hemp, fun hnil _ => ?_⟩
    · constructor
      · intro h2
        exfalso
        rcases hsel : s.dropped_columns_df.select names with e | u
        · have : (DState.restore_columns s names).2 = some e := by
            simp [DState.restore_columns, hemp', hsel]
          rw [this] at h2
          have he : e = Err.NothingToRestore := by
            simpa using h2
          subst he
          unfold Table.select at hsel
          by_cases hall : (names.all (fun c => s.dropped_columns_df.cols.contains c)) = true
          · rw [if_pos hall] at hsel
            exact Except.noConfusion hsel
          · rw [if_neg hall] at hsel
            have := Except.error.inj hsel
            exact Err.noConfusion this
        · have : (DState.restore_columns s names).2 = none := by
            simp [DState.restore_columns, hemp', hsel]
          rw [this] at h2
          exact Option.noConfusion h2
      · intro htrue
        exact absurd htrue hemp
    · subst hnil
      have hsel : s.dropped_columns_df.select ([] : List String)
          = .ok ⟨[], s.dropped_columns_df.rows.map (fun r => (r.1, []))⟩ := by
        rw [select_ok (fun a ha => absurd ha (List.not_mem_nil a))]
        rfl
      have hres : DState.restore_columns s []
          = (⟨s.data.concatCols ⟨[], s.dropped_columns_df.rows.map (fun r => (r.1, []))⟩,
              s.dropped_columns.filter (fun c => ¬ ([] : List String).contains c),
              s.dropped_rows, s.dropped_columns_df, s.dropped_rows_df⟩, none) := by
        simp [DState.restore_columns, hemp', hsel]
      rw [hres]
      refine ⟨rfl, ?_, ?_⟩
      · show s.data.cols ++ [] = s.data.cols
        exact List.append_nil _
      · show s.dropped_columns.filter (fun c => ¬ ([] : List String).contains c)
            = s.dropped_columns
        rw [List.filter_eq_self]
        intro a _
        simp

/-- **C5** counterexample to the claim as stated: after dropping `["a"]`
from `tabABC` the snapshot is non-empty; restoring the *empty* name list
succeeds (`none`), it does not fail with `NothingToRestore` as claimed. -/
theorem C5_counterexample :
    (DState.restore_columns (DState.drop_columns (DState.initState tabABC) ["a"]).1 []).2
      = none ∧
    (none : Option Err) ≠ some Err.NothingToRestore := by
  decide

/-- **C5** witness: the amended theorem applied after dropping `["a"]`
from `tabABC`, restoring the empty list: no failure, no column added,
dropped list unchanged. -/
theorem C5_restore_columns_nothing_to_restore_witness :
    (DState.restore_columns (DState.drop_columns (DState.initState tabABC) ["a"]).1 []).2
      = none ∧
    (DState.restore_columns (DState.drop_columns (DState.initState tabABC) ["a"]).1
        []).1.data.cols
      = (DState.drop_columns (DState.initState tabABC) ["a"]).1.data.cols ∧
    (DState.restore_columns (DState.drop_columns (DState.initState tabABC) ["a"]).1
        []).1.dropped_columns
      = (DState.drop_columns (DState.initState tabABC) ["a"]).1.dropped_columns := by
  exact (C5_restore_columns_nothing_to_restore
    (DState.drop_columns (DState.initState tabABC) ["a"]).1 []).2.2 rfl (by decide)

lemma select_eq_ok {κ α : Type} [DecidableEq κ] [DecidableEq α] [Inhabited α]
    {t : Table κ α} {names : List String} {u : Table κ α}
    (h : t.select names = .ok u) :
    u = ⟨names, t.rows.map (fun r => (r.1, names.map (Table.cellIn t.cols r.2)))⟩ := by
  unfold Table.select at h
  by_cases hall : (names.all fun c => t.cols.contains c) = true
  · rw [if_pos hall] at h
    exact (Except.ok.inj h).symm
  · rw [if_neg hall] at h
    exact Except.noConfusion h

lemma loc_eq_ok {κ α : Type} [DecidableEq κ] [DecidableEq α] [Inhabited α]
    {t : Table κ α} {keys : List κ} {u : Table κ α}
    (h : t.loc keys = .ok u) :
    u = ⟨t.cols, keys.map (fun k =>
          (k, (t.rows.lookup k).getD (List.replicate t.cols.length default)))⟩ := by
  unfold Table.loc at h
  by_cases hall : (keys.all fun k => (t.index).contains k) = true
  · rw [if_pos hall] at h
    exact (Except.ok.inj h).symm
  · rw [if_neg hall] at h
    exact Except.noConfusion h

/-- **C3** (amended): for every state, a successful column (row) drop
appends exactly its names (keys) to the dropped list and makes exactly
them the snapshot's columns (index), so the names of the *most recent*
drop batch are always retrievable from the snapshot; a successful restore
removes from the dropped list exactly the requested subset, but leaves
the snapshot itself unchanged.  The original claim's stronger invariant —
that *every* listed name/key is retrievable from the snapshot and that a
restore also shrinks the snapshot — is false, because each new drop
overwrites the single-slot snapshot and a restore never writes to it (see
the counterexample). -/
theorem C3_dropped_lists_and_snapshots
    {κ α : Type} [DecidableEq κ] [LinearOrder κ] [DecidableEq α] [Inhabited α]
    (s : DState κ α) (names : List String) (keys : List κ) :
    ((DState.drop_columns s names).2 = none →
      (DState.drop_columns s names).1.dropped_columns = s.dropped_columns ++ names ∧
      (DState.drop_columns s names).1.dropped_columns_df.cols = names) ∧
    ((DState.restore_columns s names).2 = none →
      (DState.restore_columns s names).1.dropped_columns
        = s.dropped_columns.filter (fun c => ¬ names.contains c) ∧
      (DState.restore_columns s names).1.dropped_columns_df = s.dropped_columns_df) ∧
    ((DState.drop_rows s keys).2 = none →
      (DState.drop_rows s keys).1.dropped_rows = s.dropped_rows ++ keys ∧
      (DState.drop_rows s keys).1.dropped_rows_df.index = keys) ∧
    ((DState.restore_rows s keys).2 = none →
      (DState.restore_rows s keys).1.dropped_rows
        = s.dropped_rows.filter (fun k => ¬ keys.contains k) ∧
      (DState.restore_rows s keys).1.dropped_rows_df = s.dropped_rows_df) := by
  refine ⟨?_, ?_, ?_, ?_⟩
  · intro h
    rcases hsel : s.data.select names with e | u
    · exfalso
      simp [DState.drop_columns, hsel] at h
    · have hu := select_eq_ok hsel
      subst hu
      constructor
      · simp [DState.drop_columns, hsel]
      · simp [DState.drop_columns, hsel]
  · intro h
    by_cases hemp : s.dropped_columns_df.isEmpty = true
    · exfalso
      simp [DState.restore_columns, hemp] at h
    · have hemp' : s.dropped_columns_df.isEmpty = false := by simpa using hemp
      rcases hsel : s.dropped_columns_df.select names with e | u
      · exfalso
        simp [DState.restore_columns, hemp', hsel] at h
      · constructor
        · simp [DState.restore_columns, hemp', hsel]
        · simp [DState.restore_columns, hemp', hsel]
  · intro h
    rcases hsel : s.data.loc keys with e | u
    · exfalso
      simp [DState.drop_rows, hsel] at h
    · have hu := loc_eq_ok hsel
      subst hu
      constructor
      · simp [DState.drop_rows, hsel]
      · simp only [DState.drop_rows, hsel, Table.index, List.map_map]
        exact List.map_congr_left (fun k _ => rfl) |>.trans (List.map_id keys)
  · intro h
    by_cases hemp : s.dropped_rows_df.isEmpty = true
    · exfalso
      simp [DState.restore_rows, hemp] at h
    · have hemp' : s.dropped_rows_df.isEmpty = false := by simpa using hemp
      constructor
      · simp [DState.restore_rows, hemp']
      · simp [DState.restore_rows, hemp']

/-- **C3** counterexample to the claim as stated: after dropping `["a"]`
then `["b"]` on `tabABC`, the name `a` is still listed in
`dropped_columns` but is no longer retrievable from the snapshot (the
second drop overwrote it); and after restoring `["b"]`, the snapshot
still contains column `b`, so a restore does not remove the restored
subset from the snapshot-derived set. -/
theorem C3_counterexample :
    ("a" ∈ (DState.drop_columns (DState.drop_columns (DState.initState tabABC) ["a"]).1
        ["b"]).1.dropped_columns ∧
     "a" ∉ (DState.drop_columns (DState.drop_columns (DState.initState tabABC) ["a"]).1
        ["b"]).1.dropped_columns_df.cols) ∧
    ((DState.restore_columns
        (DState.drop_columns (DState.drop_columns (DState.initState tabABC) ["a"]).1
          ["b"]).1 ["b"]).2 = none ∧
     "b" ∉ (DState.restore_columns
        (DState.drop_columns (DState.drop_columns (DState.initState tabABC) ["a"]).1
          ["b"]).1 ["b"]).1.dropped_columns ∧
     "b" ∈ (DState.restore_columns
        (DState.drop_columns (DState.drop_columns (DState.initState tabABC) ["a"]).1
          ["b"]).1 ["b"]).1.dropped_columns_df.cols) := by
  decide

/-- **C3** witness: the amended theorem applied on `tabABC` with a
column drop of `["a"]` and a row drop of `[0]`. -/
theorem C3_dropped_lists_and_snapshots_witness :
    ((DState.drop_columns (DState.initState tabABC) ["a"]).1.dropped_columns
      = [] ++ ["a"] ∧
     (DState.drop_columns (DState.initState tabABC) ["a"]).1.dropped_columns_df.cols
      = ["a"]) ∧
    ((DState.drop_rows (DState.initState tabABC) [0]).1.dropped_rows = [] ++ [0] ∧
     (DState.drop_rows (DState.initState tabABC) [0]).1.dropped_rows_df.index = [0]) := by
  have h := C3_dropped_lists_and_snapshots (DState.initState tabABC) ["a"] [0]
  exact ⟨h.1 (by decide), h.2.2.1 (by decide)⟩

/-- **C6**: every embedded fallible operation (drop/restore of columns or
rows, type conversion, formula application — with rename never failing
at all, and the merge loop not touching per-dataset state), when it
reports an error, returns the dataset state exactly as it was: in the
source each raise point precedes the first mutation of `data` or of the
`settings` fields, so a failed call leaves no partial mutation. -/
theorem C6_failed_ops_leave_state_unchanged
    {κ α : Type} [DecidableEq κ] [LinearOrder κ] [DecidableEq α] [Inhabited α]
    (s : DState κ α) (names : List String) (keys : List κ) (c : String)
    (conv : α → Option α) (old new input : String)
    (eval : Table κ α → String → Except Err (List α)) :
    ((DState.drop_columns s names).2.isSome → (DState.drop_columns s names).1 = s) ∧
    ((DState.restore_columns s names).2.isSome → (DState.restore_columns s names).1 = s) ∧
    ((DState.drop_rows s keys).2.isSome → (DState.drop_rows s keys).1 = s) ∧
    ((DState.restore_rows s keys).2.isSome → (DState.restore_rows s keys).1 = s) ∧
    ((DState.convert_column s c conv).2.isSome → (DState.convert_column s c conv).1 = s) ∧
    (DState.rename_column s old new).2 = none ∧
    ((DState.apply_formula s input eval).2.isSome → (DState.apply_formula s input eval).1 = s) := by
  refine ⟨?_, ?_, ?_, ?_, ?_, rfl, ?_⟩
  · intro h
    rcases hsel : s.data.select names with e | u
    · simp [DState.drop_columns, hsel]
    · exfalso
      simp [DState.drop_columns, hsel] at h
  · intro h
    by_cases hemp : s.dropped_columns_df.isEmpty = true
    · simp [DState.restore_columns, hemp]
    · have hemp' : s.dropped_columns_df.isEmpty = false := by simpa using hemp
      rcases hsel : s.dropped_columns_df.select names with e | u
      · simp [DState.restore_columns, hemp', hsel]
      · exfalso
        simp [DState.restore_columns, hemp', hsel] at h
  · intro h
    rcases hsel : s.data.loc keys with e | u
    · simp [DState.drop_rows, hsel]
    · exfalso
      simp [DState.drop_rows, hsel] at h
  · intro h
    by_cases hemp : s.dropped_rows_df.isEmpty = true
    · simp [DState.restore_rows, hemp]
    · exfalso
      have hemp' : s.dropped_rows_df.isEmpty = false := by simpa using hemp
      simp [DState.restore_rows, hemp'] at h
  · intro h
    by_cases hc : (s.data.cols.contains c) = true
    · rcases hmap : (s.data.column c).mapM conv with _ | vals
      · simp only [DState.convert_column]
        rw [if_pos hc, hmap]
      · exfalso
        simp only [DState.convert_column] at h
        rw [if_pos hc, hmap] at h
        simp at h
    · simp only [DState.convert_column]
      rw [if_neg hc]
  · intro h
    rcases hsplit : input.splitOn "=" with _ | ⟨n, _ | ⟨ex, _ | ⟨x, xs⟩⟩⟩
    · simp [DState.apply_formula, hsplit]
    · simp [DState.apply_formula, hsplit]
    · rcases heval : eval s.data ex.trim with e | vals
      · simp [DState.apply_formula, hsplit, heval]
      · by_cases hl : vals.length = s.data.rows.length
        · exfalso
          simp [DState.apply_formula, hsplit, heval, hl] at h
        · simp [DState.apply_formula, hsplit, heval, hl]
    · simp [DState.apply_formula, hsplit]

/-- **C6** witness: three concrete failing operations on `tabABC` — a drop
of a missing column, a drop of a missing row key, and a type conversion
whose converter rejects every cell — each returning the state untouched. -/
theorem C6_failed_ops_leave_state_unchanged_witness :
    (DState.drop_columns (DState.initState tabABC) ["z"]).1 = DState.initState tabABC ∧
    (DState.drop_rows (DState.initState tabABC) [5]).1 = DState.initState tabABC ∧
    (DState.convert_column (DState.initState tabABC) "a"
        (fun _ => (none : Option Int))).1 = DState.initState tabABC := by
  have h := C6_failed_ops_leave_state_unchanged (DState.initState tabABC) ["z"] [5] "a"
    (fun _ => (none : Option Int)) "a" "z" "x" (fun _ _ => .error .FormulaError)
  exact ⟨h.1 (by decide), h.2.2.1 (by decide), h.2.2.2.2.1 (by decide)⟩

section RowHelpers

variable {κ α : Type} [DecidableEq κ] [DecidableEq α] [Inhabited α]

open Table

lemma loc_ok {t : Table κ α} {keys : List κ} (h : ∀ k ∈ keys, k ∈ t.index) :
    t.loc keys
      = .ok ⟨t.cols, keys.map (fun k =>
          (k, (t.rows.lookup k).getD (List.replicate t.cols.length default)))⟩ := by
  simp only [Table.loc]
  rw [if_pos]
  rw [List.all_eq_true]
  intro k hk
  simpa using h k hk

lemma loc_rows_perm (rows : List (κ × List α)) (keys : List κ) (d : List α)
    (hnd : (rows.map Prod.fst).Nodup) (hkeys : keys.Nodup)
    (hsub : ∀ k ∈ keys, k ∈ rows.map Prod.fst) :
    List.Perm (keys.map (fun k => (k, (List.lookup k rows).getD d)))
      (rows.filter (fun r => keys.contains r.1)) := by
  induction keys with
  | nil =>
    rw [show rows.filter (fun r => ([] : List κ).contains r.1) = [] from
      List.filter_eq_nil_iff.2 (fun a _ => by simp)]
    rfl
  | cons k ks ih =>
    rcases List.nodup_cons.1 hkeys with ⟨hknotin, hks⟩
    obtain ⟨b, hb⟩ := exists_lookup_of_mem_fst (hsub k (List.mem_cons_self k ks))
    have hmem : (k, b) ∈ rows := mem_of_lookup_eq_some hb
    have h2 := filter_keys_cons k ks hnd hmem hknotin
    rw [List.map_cons, hb]
    exact (List.Perm.cons (k, b)
      (ih hks (fun x hx => hsub x (List.mem_cons_of_mem k hx)))).trans h2.symm

lemma concatRows_same_cols (tc : List String) (trows srows : List (κ × List α))
    (hndc : tc.Nodup)
    (hlt : ∀ r ∈ trows, r.2.length = tc.length)
    (hls : ∀ r ∈ srows, r.2.length = tc.length) :
    Table.concatRows ⟨tc, trows⟩ ⟨tc, srows⟩ = ⟨tc, trows ++ srows⟩ := by
  have hfil : tc.filter (fun c => ¬ ((⟨tc, trows⟩ : Table κ α).cols).contains c) = [] := by
    rw [List.filter_eq_nil_iff]
    intro c hc
    simp [hc]
  unfold Table.concatRows
  simp only at hfil ⊢
  rw [hfil, List.append_nil]
  have hmap : ∀ (rows : List (κ × List α)), (∀ r ∈ rows, r.2.length = tc.length) →
      rows.map (fun r => (r.1, tc.map
        (fun c => if tc.contains c then cellIn tc r.2 c else default))) = rows := by
    intro rows hrows
    have : ∀ r ∈ rows, (r.1, tc.map
        (fun c => if tc.contains c then cellIn tc r.2 c else default)) = r := by
      intro r hr
      have hcells : tc.map
          (fun c => if tc.contains c then cellIn tc r.2 c else default)
          = tc.map (fun c => cellIn tc r.2 c) := by
        refine List.map_congr_left (fun c hc => ?_)
        rw [if_pos (by simpa using hc)]
      rw [hcells, map_cellIn_self tc r.2 (hrows r hr) hndc]
    rw [List.map_congr_left this]
    simp
  congr 1
  rw [hmap trows hlt, hmap srows hls]

end RowHelpers

/-- **C2** (amended): for a table with at least one column and a nonempty,
duplicate-free list of row keys all present in the index, dropping those
rows and then restoring the same keys succeeds and yields a table with the
same columns whose rows are a permutation of the original rows, re-sorted
by row key ascending (and `dropped_rows` is empty again).  The original
claim's quantification over *every* table and *every* key set fails for an
empty key list or a zero-column table, where the snapshot DataFrame is
empty and the restore fails with `NothingToRestore` (see the
counterexample). -/
theorem C2_drop_restore_rows_round_trip
    {κ α : Type} [DecidableEq κ] [LinearOrder κ] [DecidableEq α] [Inhabited α]
    (T : Table κ α) (keys : List κ)
    (hnd : T.cols.Nodup) (hknd : T.index.Nodup)
    (hlen : ∀ r ∈ T.rows, r.2.length = T.cols.length)
    (hkeys : keys.Nodup) (hsub : ∀ k ∈ keys, k ∈ T.index)
    (hkne : keys ≠ []) (hcne : T.cols ≠ []) :
    (DState.drop_rows (DState.initState T) keys).2 = none ∧
    (DState.restore_rows (DState.drop_rows (DState.initState T) keys).1 keys).2 = none ∧
    (DState.restore_rows (DState.drop_rows (DState.initState T) keys).1 keys).1.data.cols
      = T.cols ∧
    List.Perm
      (DState.restore_rows (DState.drop_rows (DState.initState T) keys).1 keys).1.data.rows
      T.rows ∧
    List.Sorted (fun a b => a.1 ≤ b.1)
      (DState.restore_rows (DState.drop_rows (DState.initState T) keys).1 keys).1.data.rows ∧
    (DState.restore_rows (DState.drop_rows (DState.initState T) keys).1 keys).1.dropped_rows
      = [] := by
  have h1 : DState.drop_rows (DState.initState T) keys
      = (⟨T.dropRowsT keys, [], keys, ⟨[], []⟩,
          ⟨T.cols, keys.map (fun k =>
            (k, (T.rows.lookup k).getD (List.replicate T.cols.length default)))⟩⟩, none) := by
    simp [DState.drop_rows, DState.initState, loc_ok hsub]
  have h1' : (DState.drop_rows (DState.initState T) keys).1
      = ⟨T.dropRowsT keys, [], keys, ⟨[], []⟩,
          ⟨T.cols, keys.map (fun k =>
            (k, (T.rows.lookup k).getD (List.replicate T.cols.length default)))⟩⟩ := by
    rw [h1]
  have hcne' : T.cols.isEmpty = false := by
    cases hc : T.cols with
    | nil => exact absurd hc hcne
    | cons c cs => rfl
  have hkne' : ((keys.map (fun k =>
      (k, (T.rows.lookup k).getD (List.replicate T.cols.length default)))).isEmpty)
      = false := by
    cases hk : keys with
    | nil => exact absurd hk hkne
    | cons k ks => rfl
  have hempty : (Table.isEmpty
      (⟨T.cols, keys.map (fun k =>
        (k, (T.rows.lookup k).getD (List.replicate T.cols.length default)))⟩ : Table κ α))
      = false := by
    simp only [Table.isEmpty, hcne', hkne', Bool.or_self]
  have hfis : Table.filterIsin
      (⟨T.cols, keys.map (fun k =>
        (k, (T.rows.lookup k).getD (List.replicate T.cols.length default)))⟩ : Table κ α)
      keys
      = ⟨T.cols, keys.map (fun k =>
          (k, (T.rows.lookup k).getD (List.replicate T.cols.length default)))⟩ := by
    unfold Table.filterIsin
    congr 1
    rw [List.filter_eq_self]
    intro r hr
    rcases List.mem_map.1 hr with ⟨k, hk, he⟩
    rw [← he]
    simpa using hk
  have hsnaplen : ∀ r ∈ keys.map (fun k =>
      (k, (T.rows.lookup k).getD (List.replicate T.cols.length default))),
      r.2.length = T.cols.length := by
    intro r hr
    rcases List.mem_map.1 hr with ⟨k, hk, he⟩
    obtain ⟨b, hb⟩ := exists_lookup_of_mem_fst (hsub k hk)
    rw [← he]
    show ((T.rows.lookup k).getD (List.replicate T.cols.length default)).length
      = T.cols.length
    rw [hb]
    exact hlen (k, b) (mem_of_lookup_eq_some hb)
  have hdroplen : ∀ r ∈ (T.dropRowsT keys).rows, r.2.length = T.cols.length := by
    intro r hr
    exact hlen r (List.mem_of_mem_filter hr)
  have hcc : Table.concatRows (T.dropRowsT keys)
      (⟨T.cols, keys.map (fun k =>
        (k, (T.rows.lookup k).getD (List.replicate T.cols.length default)))⟩ : Table κ α)
      = ⟨T.cols, (T.dropRowsT keys).rows ++ keys.map (fun k =>
          (k, (T.rows.lookup k).getD (List.replicate T.cols.length default)))⟩ :=
    concatRows_same_cols T.cols _ _ hnd hdroplen hsnaplen
  have hres : DState.restore_rows (DState.drop_rows (DState.initState T) keys).1 keys
      = (⟨⟨T.cols, List.insertionSort (fun a b => a.1 ≤ b.1)
            ((T.dropRowsT keys).rows ++ keys.map (fun k =>
              (k, (T.rows.lookup k).getD (List.replicate T.cols.length default))))⟩,
          [], keys.filter (fun k => ¬ keys.contains k), ⟨[], []⟩,
          ⟨T.cols, keys.map (fun k =>
            (k, (T.rows.lookup k).getD (List.replicate T.cols.length default)))⟩⟩, none) := by
    rw [h1']
    simp only [DState.restore_rows, hempty, Bool.false_eq_true, if_false, hfis, hcc]
    rfl
  have hkfil : keys.filter (fun k => ¬ keys.contains k) = [] := by
    rw [List.filter_eq_nil_iff]
    intro k hk
    simp [hk]
  have hperm : List.Perm
      ((T.dropRowsT keys).rows ++ keys.map (fun k =>
        (k, (T.rows.lookup k).getD (List.replicate T.cols.length default))))
      T.rows := by
    have hp1 : List.Perm
        (keys.map (fun k => (k, (T.rows.lookup k).getD (List.replicate T.cols.length default))))
        (T.rows.filter (fun r => keys.contains r.1)) :=
      loc_rows_perm T.rows keys _ hknd hkeys hsub
    have hp2 := List.Perm.append_left (T.dropRowsT keys).rows hp1
    have hfc : (T.dropRowsT keys).rows
        = T.rows.filter (fun r => !(keys.contains r.1)) := by
      show T.rows.filter _ = _
      refine List.filter_congr (fun r _ => ?_)
      simp
    have hp3 := List.filter_append_perm (fun r => keys.contains r.1) T.rows
    refine hp2.trans ?_
    rw [hfc]
    exact List.perm_append_comm.trans hp3
  refine ⟨by rw [h1], by rw [hres], by rw [hres], ?_, ?_, by rw [hres, hkfil]⟩
  · rw [hres]
    exact (List.perm_insertionSort _ _).trans hperm
  · rw [hres]
    exact List.sorted_insertionSort _ _

/-- **C2** counterexample to the claim as stated: on `tabABC` with the
empty key set, the restore fails with `NothingToRestore` (the snapshot
`data.loc[[]]` has zero rows, so `.empty` is true); and on the zero-column
table `tabNoCols`, dropping row `0` and restoring it also fails with
`NothingToRestore` (zero columns make the snapshot `.empty`), the row
being permanently lost. -/
theorem C2_counterexample :
    ((DState.drop_rows (DState.initState tabABC) []).2 = none ∧
     (DState.restore_rows (DState.drop_rows (DState.initState tabABC) []).1 []).2
       = some Err.NothingToRestore) ∧
    ((DState.drop_rows (DState.initState tabNoCols) [0]).2 = none ∧
     (DState.restore_rows (DState.drop_rows (DState.initState tabNoCols) [0]).1 [0]).2
       = some Err.NothingToRestore ∧
     0 ∉ (DState.restore_rows
        (DState.drop_rows (DState.initState tabNoCols) [0]).1 [0]).1.data.index) := by
  decide

/-- **C2** witness: the amended theorem applied at `tabABC` with keys
`[1]`. -/
theorem C2_drop_restore_rows_round_trip_witness :
    (DState.drop_rows (DState.initState tabABC) [1]).2 = none ∧
    (DState.restore_rows (DState.drop_rows (DState.initState tabABC) [1]).1 [1]).2 = none ∧
    (DState.restore_rows (DState.drop_rows (DState.initState tabABC) [1]).1 [1]).1.data.cols
      = tabABC.cols ∧
    List.Perm
      (DState.restore_rows (DState.drop_rows (DState.initState tabABC) [1]).1 [1]).1.data.rows
      tabABC.rows ∧
    List.Sorted (fun a b => a.1 ≤ b.1)
      (DState.restore_rows (DState.drop_rows (DState.initState tabABC) [1]).1 [1]).1.data.rows ∧
    (DState.restore_rows (DState.drop_rows (DState.initState tabABC) [1]).1 [1]).1.dropped_rows
      = [] :=
  C2_drop_restore_rows_round_trip tabABC [1]
    (by decide) (by decide) (by decide) (by decide) (by decide) (by decide) (by decide)

section RowHelpers2

variable {κ α : Type} [DecidableEq κ] [DecidableEq α] [Inhabited α]

open Table

lemma concatRows_same_cols_of_eq (t s : Table κ α) (hsc : s.cols = t.cols)
    (hndc : t.cols.Nodup)
    (hlt : ∀ r ∈ t.rows, r.2.length = t.cols.length)
    (hls : ∀ r ∈ s.rows, r.2.length = t.cols.length) :
    t.concatRows s = ⟨t.cols, t.rows ++ s.rows⟩ := by
  obtain ⟨tc, trows⟩ := t
  obtain ⟨sc, srows⟩ := s
  simp only at hsc hlt hls hndc
  subst hsc
  exact concatRows_same_cols _ trows srows hndc hlt hls

lemma concatRows_index (t s : Table κ α) :
    (t.concatRows s).index = t.index ++ s.index := by
  simp only [Table.concatRows, Table.index]
  rw [List.map_append, index_map_rows, index_map_rows]

lemma filterIsin_index (t : Table κ α) (keys : List κ) :
    (t.filterIsin keys).index = t.index.filter (fun k => keys.contains k) := by
  show List.map Prod.fst (List.filter (fun r => keys.contains r.1) t.rows)
      = List.filter (fun k => keys.contains k) (List.map Prod.fst t.rows)
  rw [List.map_filter]
  refine congrArg (List.map Prod.fst) (List.filter_congr fun r _ => ?_)
  rfl

end RowHelpers2

/-- **C10**: whenever the dropped-rows snapshot is non-empty,
`restore_rows` never fails, whatever keys are requested: it restores
exactly the snapshot rows whose key is in the request (requested keys
absent from the snapshot are silently ignored), re-sorts, and removes
*every* requested key from `dropped_rows` — including keys for which no
row was restored. -/
theorem C10_restore_rows_ignores_missing_keys
    {κ α : Type} [DecidableEq κ] [LinearOrder κ] [DecidableEq α] [Inhabited α]
    (s : DState κ α) (keys : List κ)
    (hne : s.dropped_rows_df.isEmpty = false) :
    (DState.restore_rows s keys).2 = none ∧
    (DState.restore_rows s keys).1.dropped_rows
      = s.dropped_rows.filter (fun k => ¬ keys.contains k) ∧
    List.Perm ((DState.restore_rows s keys).1.data.index)
      (s.data.index ++ (s.dropped_rows_df.index.filter (fun k => keys.contains k))) ∧
    (s.dropped_rows_df.cols = s.data.cols →
      s.data.cols.Nodup →
      (∀ r ∈ s.data.rows, r.2.length = s.data.cols.length) →
      (∀ r ∈ s.dropped_rows_df.rows, r.2.length = s.data.cols.length) →
      List.Perm ((DState.restore_rows s keys).1.data.rows)
        (s.data.rows ++ s.dropped_rows_df.rows.filter (fun r => keys.contains r.1))) := by
  have hres : DState.restore_rows s keys
      = (⟨(s.data.concatRows (s.dropped_rows_df.filterIsin keys)).sortIndex,
          s.dropped_columns, s.dropped_rows.filter (fun k => ¬ keys.contains k),
          s.dropped_columns_df, s.dropped_rows_df⟩, none) := by
    simp [DState.restore_rows, hne]
  refine ⟨by rw [hres], by rw [hres], ?_, ?_⟩
  · rw [hres]
    have hp := List.Perm.map Prod.fst
      (List.perm_insertionSort (fun a b : κ × List α => a.1 ≤ b.1)
        ((s.data.concatRows (s.dropped_rows_df.filterIsin keys)).rows))
    have heq : List.map Prod.fst
        (s.data.concatRows (s.dropped_rows_df.filterIsin keys)).rows
        = s.data.index ++ (s.dropped_rows_df.index.filter (fun k => keys.contains k)) := by
      rw [show List.map Prod.fst (s.data.concatRows (s.dropped_rows_df.filterIsin keys)).rows
            = (s.data.concatRows (s.dropped_rows_df.filterIsin keys)).index from rfl]
      rw [concatRows_index, filterIsin_index]
    exact hp.trans (List.Perm.of_eq heq)
  · intro hcols hndc hlenD hlenDf
    rw [hres]
    have hcc := concatRows_same_cols_of_eq s.data (s.dropped_rows_df.filterIsin keys)
      (by rw [show (s.dropped_rows_df.filterIsin keys).cols = s.dropped_rows_df.cols from rfl,
              hcols])
      hndc hlenD
      (fun r hr => hlenDf r (List.mem_of_mem_filter hr))
    show List.Perm (List.insertionSort _ (s.data.concatRows
        (s.dropped_rows_df.filterIsin keys)).rows) _
    rw [hcc]
    exact List.perm_insertionSort _ _

/-- **C10** witness: after dropping row `0` of `tabABC`, restoring
`[0, 5]` (key `5` never existed) succeeds, restores exactly row `0`, and
removes both requested keys from `dropped_rows`. -/
theorem C10_restore_rows_ignores_missing_keys_witness :
    (DState.restore_rows (DState.drop_rows (DState.initState tabABC) [0]).1 [0, 5]).2
      = none ∧
    (DState.restore_rows (DState.drop_rows (DState.initState tabABC) [0]).1
        [0, 5]).1.dropped_rows
      = (DState.drop_rows (DState.initState tabABC) [0]).1.dropped_rows.filter
          (fun k => ¬ ([0, 5] : List Nat).contains k) ∧
    List.Perm
      ((DState.restore_rows (DState.drop_rows (DState.initState tabABC) [0]).1
          [0, 5]).1.data.index)
      ((DState.drop_rows (DState.initState tabABC) [0]).1.data.index
        ++ ((DState.drop_rows (DState.initState tabABC) [0]).1.dropped_rows_df.index.filter
              (fun k => ([0, 5] : List Nat).contains k))) := by
  have h := C10_restore_rows_ignores_missing_keys
    (DState.drop_rows (DState.initState tabABC) [0]).1 [0, 5] (by decide)
  exact ⟨h.1, h.2.1, h.2.2.1⟩

/-! ## Lemmas about the Merge/Join combiner -/

section MergeHelpers

variable {α : Type} [DecidableEq α] [Inhabited α]

open Table

lemma map_enumFrom_snd {β γ : Type} (g : β → γ) (n : Nat) (l : List β) :
    (List.enumFrom n l).map (fun r => g r.2) = l.map g := by
  induction l generalizing n with
  | nil => rfl
  | cons x xs ih => simp [List.enumFrom, ih]

lemma mem_enum_snd {β : Type} {r : Nat × β} {l : List β} (h : r ∈ l.enum) : r.2 ∈ l := by
  have := List.mem_map_of_mem Prod.snd h
  rwa [List.enum_map_snd] at this

lemma zip_filter_fst_length (p : String → Bool) :
    ∀ (l1 : List String) (l2 : List α), l2.length = l1.length →
      ((l1.zip l2).filter (fun q => p q.1)).length = (l1.filter p).length
  | [], [], _ => by simp
  | [], x :: xs, h => by simp at h
  | c :: cs, [], h => by simp at h
  | c :: cs, x :: xs, h => by
    have h' : xs.length = cs.length := by simpa using h
    by_cases hp : p c
    · simp only [List.zip_cons_cons, List.filter_cons, hp, if_true, List.length_cons]
      rw [zip_filter_fst_length p cs xs h']
    · simp only [List.zip_cons_cons, List.filter_cons, hp, Bool.false_eq_true, if_false]
      exact zip_filter_fst_length p cs xs h'

lemma indexOf_map_eq (f : String → String) (key : String)
    (hf : ∀ c, f c = key ↔ c = key) :
    ∀ l : List String, (l.map f).indexOf key = l.indexOf key := by
  intro l
  induction l with
  | nil => rfl
  | cons c cs ih =>
    rw [List.map_cons, List.indexOf_cons, List.indexOf_cons]
    by_cases hc : c = key
    · have hfc : f c = key := (hf c).2 hc
      rw [hfc, hc]
      simp
    · have hfc : f c ≠ key := fun h => hc ((hf c).1 h)
      rw [beq_false_of_ne hfc, beq_false_of_ne hc]
      simp [ih]

lemma mergeInner_eq_ok {t s : Table Nat α} {key : String}
    (h1 : key ∈ t.cols) (h2 : key ∈ s.cols) :
    mergeInner t s key
      = .ok ⟨t.cols.map (fun c => if c != key && s.cols.contains c then c ++ "_x" else c)
               ++ (s.cols.filter (fun c => c != key)).map
                    (fun c => if t.cols.contains c then c ++ "_y" else c),
             (t.rows.flatMap (fun r1 =>
                (s.rows.filter (fun r2 =>
                    Table.cellIn s.cols r2.2 key == Table.cellIn t.cols r1.2 key)).map
                  (fun r2 =>
                    r1.2 ++ ((s.cols.zip r2.2).filter
                               (fun p => p.1 != key)).map Prod.snd))).enum⟩ := by
  unfold mergeInner
  rw [if_pos]
  simp [h1, h2]

lemma mergeInner_error_absent {t s : Table Nat α} {key : String}
    (h : key ∉ t.cols ∨ key ∉ s.cols) :
    mergeInner t s key = .error .MergeKeyError := by
  unfold mergeInner
  rw [if_neg]
  rcases h with h | h <;> simp [h]

lemma mergeKeyF_eq_key {s : Table Nat α} {key : String} :
    (if (key != key) && s.cols.contains key then key ++ "_x" else key) = key := by
  simp

lemma key_mem_merge_cols {t s : Table Nat α} {key : String} (h1 : key ∈ t.cols) :
    key ∈ t.cols.map (fun c => if c != key && s.cols.contains c then c ++ "_x" else c)
            ++ (s.cols.filter (fun c => c != key)).map
                 (fun c => if t.cols.contains c then c ++ "_y" else c) := by
  refine List.mem_append_left _ ?_
  have := List.mem_map_of_mem
    (fun c => if c != key && s.cols.contains c then c ++ "_x" else c) h1
  simpa using this

end MergeHelpers

section MergeSpec

variable {α : Type} [DecidableEq α] [Inhabited α]

open Table

lemma merge_f_eq_key_iff {s : Table Nat α} {key : String}
    (Hx : ∀ c : String, c ++ "_x" ≠ key) (c : String) :
    (if c != key && s.cols.contains c then c ++ "_x" else c) = key ↔ c = key := by
  constructor
  · intro h
    by_cases hcnd : (c != key && s.cols.contains c) = true
    · rw [if_pos hcnd] at h
      exact absurd h (Hx c)
    · rwa [if_neg hcnd] at h
  · rintro rfl
    simp

lemma cellIn_merge_key {t s : Table Nat α} {key : String}
    (Hx : ∀ c : String, c ++ "_x" ≠ key) (h1 : key ∈ t.cols)
    {cells1 tail : List α} (hl1 : cells1.length = t.cols.length) :
    Table.cellIn
      (t.cols.map (fun c => if c != key && s.cols.contains c then c ++ "_x" else c)
        ++ (s.cols.filter (fun c => c != key)).map
             (fun c => if t.cols.contains c then c ++ "_y" else c))
      (cells1 ++ tail) key
      = Table.cellIn t.cols cells1 key := by
  have hfkey : (fun c => if c != key && s.cols.contains c then c ++ "_x" else c) key
      = key := by simp
  have hmf : key ∈ t.cols.map
      (fun c => if c != key && s.cols.contains c then c ++ "_x" else c) := by
    have := List.mem_map_of_mem
      (fun c => if c != key && s.cols.contains c then c ++ "_x" else c) h1
    rwa [hfkey] at this
  have hidxmap : (t.cols.map
      (fun c => if c != key && s.cols.contains c then c ++ "_x" else c)).indexOf key
      = t.cols.indexOf key :=
    indexOf_map_eq _ key (merge_f_eq_key_iff Hx) t.cols
  have hidx : t.cols.indexOf key < t.cols.length := List.indexOf_lt_length.2 h1
  show (cells1 ++ tail).getD (List.indexOf key _) default = cells1.getD _ default
  rw [List.indexOf_append_of_mem hmf, hidxmap,
      List.getD_append _ _ _ _ (by rw [hl1]; exact hidx)]

lemma mergeInner_spec {t s : Table Nat α} {key : String}
    (Hx : ∀ c : String, c ++ "_x" ≠ key)
    (h1 : key ∈ t.cols) (h2 : key ∈ s.cols)
    (hlt : ∀ r ∈ t.rows, r.2.length = t.cols.length)
    (hls : ∀ r ∈ s.rows, r.2.length = s.cols.length) :
    ∃ m, mergeInner t s key = .ok m ∧ key ∈ m.cols ∧
      (∀ r ∈ m.rows, r.2.length = m.cols.length) ∧
      (∀ v ∈ m.column key, v ∈ t.column key ∧ v ∈ s.column key) := by
  refine ⟨_, mergeInner_eq_ok h1 h2, key_mem_merge_cols h1, ?_, ?_⟩
  · intro r hr
    have hmem := mem_enum_snd hr
    rcases List.mem_flatMap.1 hmem with ⟨r1, hr1, hx⟩
    rcases List.mem_map.1 hx with ⟨r2, hr2f, he⟩
    have hr2 : r2 ∈ s.rows := List.mem_of_mem_filter hr2f
    rw [← he]
    show (r1.2 ++ _).length = (List.map _ t.cols ++ List.map _ _).length
    rw [List.length_append, List.length_append, List.length_map, List.length_map,
        List.length_map, hlt r1 hr1,
        zip_filter_fst_length (fun c => c != key) s.cols r2.2 (hls r2 hr2)]
  · intro v hv
    simp only [Table.column, List.enum] at hv
    rw [map_enumFrom_snd
        (fun cells => Table.cellIn
          (t.cols.map (fun c => if c != key && s.cols.contains c then c ++ "_x" else c)
            ++ (s.cols.filter (fun c => c != key)).map
                 (fun c => if t.cols.contains c then c ++ "_y" else c)) cells key)] at hv
    rcases List.mem_map.1 hv with ⟨cells, hcells, hveq⟩
    rcases List.mem_flatMap.1 hcells with ⟨r1, hr1, hx⟩
    rcases List.mem_map.1 hx with ⟨r2, hr2f, he⟩
    rcases List.mem_filter.1 hr2f with ⟨hr2, hcond⟩
    have hcondeq : Table.cellIn s.cols r2.2 key = Table.cellIn t.cols r1.2 key :=
      eq_of_beq hcond
    have hvt : v = Table.cellIn t.cols r1.2 key := by
      rw [← hveq, ← he]
      exact cellIn_merge_key Hx h1 (hlt r1 hr1)
    constructor
    · rw [hvt]
      exact List.mem_map_of_mem (fun r => Table.cellIn t.cols r.2 key) hr1
    · rw [hvt, ← hcondeq]
      exact List.mem_map_of_mem (fun r => Table.cellIn s.cols r.2 key) hr2

end MergeSpec

section MergeFold

variable {α : Type} [DecidableEq α] [Inhabited α]

open Table

lemma merge_fold_error (key : String) (hk : key ≠ "") (e : Err) :
    ∀ rest : List (Table Nat α),
      List.foldl
        (fun (acc : Except Err (Table Nat α)) df =>
          if key ≠ "" then acc.bind (fun d => mergeInner d df key) else acc)
        (.error e) rest = .error e := by
  intro rest
  induction rest with
  | nil => rfl
  | cons t ts ih =>
    simp only [List.foldl_cons]
    rw [if_pos hk]
    exact ih

lemma merge_fold_absent (key : String) (hk : key ≠ "") :
    ∀ (rest : List (Table Nat α)) (acc : Table Nat α), key ∈ acc.cols →
      (∃ t ∈ rest, key ∉ t.cols) →
      List.foldl
        (fun (a : Except Err (Table Nat α)) df =>
          if key ≠ "" then a.bind (fun d => mergeInner d df key) else a)
        (.ok acc) rest = .error .MergeKeyError := by
  intro rest
  induction rest with
  | nil =>
    rintro acc _ ⟨t, ht, _⟩
    simp at ht
  | cons t ts ih =>
    rintro acc hacc ⟨u, hu, hukey⟩
    simp only [List.foldl_cons]
    rw [if_pos hk,
        show (Except.ok acc).bind (fun d => mergeInner d t key) = mergeInner acc t key
          from rfl]
    rcases List.mem_cons.1 hu with rfl | humem
    · rw [mergeInner_error_absent (Or.inr hukey)]
      exact merge_fold_error key hk _ ts
    · by_cases htk : key ∈ t.cols
      · rw [mergeInner_eq_ok hacc htk]
        exact ih _ (key_mem_merge_cols hacc) ⟨u, humem, hukey⟩
      · rw [mergeInner_error_absent (Or.inr htk)]
        exact merge_fold_error key hk _ ts

lemma merge_fold_ok (key : String) (hk : key ≠ "") (Hx : ∀ c : String, c ++ "_x" ≠ key) :
    ∀ (rest : List (Table Nat α)) (acc : Table Nat α),
      key ∈ acc.cols → (∀ r ∈ acc.rows, r.2.length = acc.cols.length) →
      (∀ t ∈ rest, key ∈ t.cols ∧ ∀ r ∈ t.rows, r.2.length = t.cols.length) →
      ∃ m, List.foldl
          (fun (a : Except Err (Table Nat α)) df =>
            if key ≠ "" then a.bind (fun d => mergeInner d df key) else a)
          (.ok acc) rest = .ok m ∧
        key ∈ m.cols ∧ (∀ r ∈ m.rows, r.2.length = m.cols.length) ∧
        (∀ v ∈ m.column key, v ∈ acc.column key ∧ ∀ t ∈ rest, v ∈ t.column key) := by
  intro rest
  induction rest with
  | nil =>
    intro acc hacc hlenacc _
    exact ⟨acc, rfl, hacc, hlenacc, fun v hv => ⟨hv, by simp⟩⟩
  | cons t ts ih =>
    intro acc hacc hlenacc hall
    obtain ⟨ht1, ht2⟩ := hall t (List.mem_cons_self t ts)
    obtain ⟨m1, hm1, hkey1, hlen1, hcol1⟩ := mergeInner_spec Hx hacc ht1 hlenacc ht2
    obtain ⟨m, hm, hkeym, hlenm, hcolm⟩ :=
      ih m1 hkey1 hlen1 (fun u hu => hall u (List.mem_cons_of_mem t hu))
    refine ⟨m, ?_, hkeym, hlenm, ?_⟩
    · simp only [List.foldl_cons]
      rw [if_pos hk,
          show (Except.ok acc).bind (fun d => mergeInner d t key) = mergeInner acc t key
            from rfl, hm1]
      exact hm
    · intro v hv
      obtain ⟨hv1, hvts⟩ := hcolm v hv
      obtain ⟨hvacc, hvt⟩ := hcol1 v hv1
      refine ⟨hvacc, fun u hu => ?_⟩
      rcases List.mem_cons.1 hu with rfl | hu'
      · exact hvt
      · exact hvts u hu'

end MergeFold

/-- **C9** (amended): for a *nonempty* merge key, the chained inner join
over all loaded tables fails with `MergeKeyError` as soon as the key
column is absent from any table; and when the key column is present in
every table but no key value occurs in all of them, it succeeds with a
zero-row table rather than an error.  For the empty key string the loop
guard `if merge_on else data` skips merging entirely and returns the
first table, so no error is raised even though no table has a column
named `""` (see the counterexample). -/
theorem C9_merge_all
    {α : Type} [DecidableEq α] [Inhabited α]
    (t0 : Table Nat α) (rest : List (Table Nat α)) (key : String) (hk : key ≠ "") :
    (rest ≠ [] → (∃ t ∈ t0 :: rest, key ∉ t.cols) →
      merge_all t0 rest key = .error .MergeKeyError) ∧
    ((∀ t ∈ t0 :: rest, key ∈ t.cols ∧ ∀ r ∈ t.rows, r.2.length = t.cols.length) →
      (∀ c : String, c ++ "_x" ≠ key) →
      (¬ ∃ v, v ∈ t0.column key ∧ ∀ t ∈ rest, v ∈ t.column key) →
      (merge_all t0 rest key).map Table.rows = .ok []) := by
  constructor
  · rintro hne ⟨t, ht, htkey⟩
    unfold merge_all
    rcases List.mem_cons.1 ht with rfl | hmem
    · rcases rest with _ | ⟨u, us⟩
      · exact absurd rfl hne
      · simp only [List.foldl_cons]
        rw [if_pos hk,
            show (Except.ok t).bind (fun d => mergeInner d u key) = mergeInner t u key
              from rfl,
            mergeInner_error_absent (Or.inl htkey)]
        exact merge_fold_error key hk _ us
    · by_cases h0 : key ∈ t0.cols
      · exact merge_fold_absent key hk rest t0 h0 ⟨t, hmem, htkey⟩
      · rcases rest with _ | ⟨u, us⟩
        · simp at hmem
        · simp only [List.foldl_cons]
          rw [if_pos hk,
              show (Except.ok t0).bind (fun d => mergeInner d u key) = mergeInner t0 u key
                from rfl,
              mergeInner_error_absent (Or.inl h0)]
          exact merge_fold_error key hk _ us
  · intro hall Hx hnom
    obtain ⟨h01, h02⟩ := hall t0 (List.mem_cons_self t0 rest)
    obtain ⟨m, hm, hkeym, hlenm, hcolm⟩ :=
      merge_fold_ok key hk Hx rest t0 h01 h02
        (fun u hu => hall u (List.mem_cons_of_mem t0 hu))
    unfold merge_all
    rw [hm]
    have hrows : m.rows = [] := by
      cases hr : m.rows with
      | nil => rfl
      | cons r rs =>
        exfalso
        have hrm : r ∈ m.rows := by
          rw [hr]
          exact List.mem_cons_self r rs
        have hvmem : Table.cellIn m.cols r.2 key ∈ m.column key :=
          List.mem_map_of_mem (fun q => Table.cellIn m.cols q.2 key) hrm
        exact hnom ⟨_, hcolm _ hvmem⟩
    show Except.ok m.rows = Except.ok ([] : List (Nat × List α))
    rw [hrows]

/-- **C9** counterexample to the claim as stated: with the empty key
string (a column name absent from every table), the merge loop's
truthiness guard skips merging and returns the first table unchanged —
no `MergeKeyError` is raised. -/
theorem C9_counterexample :
    merge_all tabKey1 [tabKey2] "" = .ok tabKey1 ∧
    "" ∉ tabKey1.cols ∧ "" ∉ tabKey2.cols := by
  refine ⟨rfl, by decide, by decide⟩

/-- **C9** witness: merging `tabKey1` with `tabABC` (which lacks column
`k`) fails with `MergeKeyError`; chaining `tabKey1`, `tabKey2`, `tabKey3`
on `k` — every table has the column, but no key value occurs in all
three — yields zero rows, not an error. -/
theorem C9_merge_all_witness :
    merge_all tabKey1 [tabABC] "k" = .error Err.MergeKeyError ∧
    (merge_all tabKey1 [tabKey2, tabKey3] "k").map Table.rows = .ok [] := by
  have hx : ∀ c : String, c ++ "_x" ≠ "k" := by
    intro c hcontra
    have hlen := congrArg String.length hcontra
    rw [String.length_append,
        show ("_x" : String).length = 2 from rfl,
        show ("k" : String).length = 1 from rfl] at hlen
    omega
  have hnom : ¬ ∃ v, v ∈ tabKey1.column "k" ∧
      ∀ t ∈ [tabKey2, tabKey3], v ∈ t.column "k" := by
    rintro ⟨v, hv1, hv2⟩
    rw [show tabKey1.column "k" = [1, 2] from rfl] at hv1
    have hv5 := hv2 tabKey2 (List.mem_cons_self tabKey2 [tabKey3])
    rw [show tabKey2.column "k" = [5] from rfl] at hv5
    have h15 : v = 5 := by simpa using hv5
    rcases List.mem_cons.1 hv1 with h1 | h2
    · omega
    · have : v = 2 := by simpa using h2
      omega
  exact ⟨(C9_merge_all tabKey1 [tabABC] "k" (by decide)).1 (by decide)
            ⟨tabABC, by decide, by decide⟩,
         (C9_merge_all tabKey1 [tabKey2, tabKey3] "k" (by decide)).2
            (by decide) hx hnom⟩

/-- **C8**: under the claim's literal-substring semantics (the
spec-modelled `filterRowsLit`), filtering the table `tabText` (single
text cell `abc`) by the string `.` keeps no row, since `.` does not occur
literally in `abc`; the source line 228 instead passes the string to
pandas `Series.str.contains`, whose default `regex=True` interprets `.`
as a regular-expression wildcard matching any character and keeps the
row — the filter string is interpreted as a pattern, contradicting the
claim. -/
theorem C8_literal_filter_at_failing_input :
    strContainsLit "abc" "." = false ∧
    (filterRowsLit tabText id "x" ".").rows = [] ∧
    strContainsLit "a.c" "." = true := by
  decide
